import Mathlib

/-!
Verification of the World-of-Bits grid game core (`src/main.ts`): coordinate
conversion, deterministic token spawning, the memento caretaker, the
viewport-driven cell lifecycle, and the pickup/drop/merge interaction engine.

Modelling conventions:
* JavaScript numbers are modelled as `Rat` (world coordinates, probability
  rolls) and `Int` (cell indices, token values, points).
* The external seed function `luck : string -> [0,1)` is an explicit function
  parameter `luck : String → Rat`.
* `Map` objects are association lists with `Map.set`/`Map.get`/`Map.delete`
  semantics (`alSet`/`alGet`/`alDel`); `Set` objects are duplicate-free lists
  (`setAdd`/`setDel`).
* Rendering-collaborator handles (`leaflet.Rectangle` elements, the map
  object, DOM panels) carry no game state; calls into them are omitted.
  `Date.now()` is passed in as an explicit `now : Nat` argument.
-/

namespace WorldOfBits

/-- A collectible token; `interface Token { value: number }`. -/
structure Token where
  value : Int
deriving DecidableEq, Repr

/-- World coordinates (`leaflet.LatLng` as consumed by the game logic). -/
structure WorldCoordinates where
  lat : Rat
  lng : Rat
deriving DecidableEq, Repr

/-- Integer cell coordinates; `interface CellCoordinates { i, j }`. -/
structure CellCoordinates where
  i : Int
  j : Int
deriving DecidableEq, Repr

/-- Cell keys are canonical strings (`type CellKey = string`). -/
abbrev CellKey := String

/-- A grid cell. `bounds` is the rectangle computed at spawn time; the
`element` field of the source is an opaque rendering handle and is omitted. -/
structure GridCell where
  i : Int
  j : Int
  token : Option Token
  bounds : (Rat × Rat) × (Rat × Rat)
  isVisible : Bool
deriving DecidableEq, Repr

/-- The player substate of `GameState`. -/
structure PlayerState where
  inventory : Option Token
  location : WorldCoordinates
  points : Int
deriving DecidableEq, Repr

/-- The global `gameState` object. -/
structure GameState where
  player : PlayerState
  visibleCells : List CellKey
  victoryCondition : Int
  isVictoryAchieved : Bool
deriving DecidableEq, Repr

/-- A memento snapshot; `interface CellMemento`. -/
structure CellMemento where
  cellKey : String
  token : Option Token
  timestamp : Nat
deriving DecidableEq, Repr

/-! Association-list model of the JavaScript `Map`, and duplicate-free list
model of the JavaScript `Set`. -/

/-- `Map.get`: first binding of the key, if any. -/
def alGet {β : Type} (k : String) : List (String × β) → Option β
  | [] => none
  | (k', v') :: rest => if k' = k then some v' else alGet k rest

/-- `Map.set`: replace the binding in place, or append a fresh one. -/
def alSet {β : Type} (k : String) (v : β) : List (String × β) → List (String × β)
  | [] => [(k, v)]
  | (k', v') :: rest => if k' = k then (k, v) :: rest else (k', v') :: alSet k v rest

/-- `Map.delete`: remove the binding of the key. -/
def alDel {β : Type} (k : String) : List (String × β) → List (String × β)
  | [] => []
  | (k', v') :: rest => if k' = k then alDel k rest else (k', v') :: alDel k rest

/-- `Set.add`: append the element when absent. -/
def setAdd (k : String) (s : List String) : List String :=
  if k ∈ s then s else s ++ [k]

/-- `Set.delete`: remove the element. -/
def setDel (k : String) (s : List String) : List String :=
  s.filter (fun k' => k' ≠ k)

/-! Configuration constants (`CONFIG`). -/

def TILE_DEGREES : Rat := 1 / 10000
def INTERACTION_RANGE : Int := 3
def VICTORY_THRESHOLD : Int := 2048
def VIEWPORT_BUFFER : Int := 2
def SPAWN_PROBABILITY : Rat := 15 / 100
def SPAWN_RADIUS : Int := 8

/-- `CONFIG.SPAWN.VALUE_DISTRIBUTION = { 1: 0.6, 2: 0.3, 4: 0.1 }`;
`Object.entries` enumerates these integer-like keys in ascending order. -/
def VALUE_DISTRIBUTION : List (Int × Rat) := [(1, 6/10), (2, 3/10), (4, 1/10)]

def CLASSROOM_LOCATION : WorldCoordinates :=
  { lat := 36997936938057016 / 1000000000000000
  , lng := -12205703507501151 / 100000000000000 }

/-! Coordinate conversion. -/

/-- `worldToCell(lat, lng)`: floor-divide each coordinate by the tile size. -/
def worldToCell (lat lng : Rat) : CellCoordinates :=
  { i := Rat.floor (lat / TILE_DEGREES), j := Rat.floor (lng / TILE_DEGREES) }

/-- `cellToWorldBounds(i, j)`: ((southWest), (northEast)) corner pairs. -/
def cellToWorldBounds (i j : Int) : (Rat × Rat) × (Rat × Rat) :=
  ((i * TILE_DEGREES, j * TILE_DEGREES),
   ((i + 1) * TILE_DEGREES, (j + 1) * TILE_DEGREES))

/-- `cellToKey(i, j)`: the canonical string key of the cell. -/
def cellToKey (i j : Int) : CellKey :=
  toString i ++ "," ++ toString j

/-- `cellDistance`: Chebyshev distance between two cells. -/
def cellDistance (cell1 cell2 : CellCoordinates) : Int :=
  max |cell1.i - cell2.i| |cell1.j - cell2.j|

/-! Memento caretaker. -/

/-- `CellOriginator.createMemento`: snapshot a token state at a time stamp. -/
def createMemento (cellKey : String) (token : Option Token) (now : Nat) : CellMemento :=
  { cellKey := cellKey, token := token, timestamp := now }

/-- `CellOriginator.restoreFromMemento`: read the token back out. -/
def restoreFromMemento (memento : CellMemento) : Option Token :=
  memento.token

/-- The `CellCaretaker` class: an owned store of mementos keyed by cell key. -/
structure CellCaretaker where
  mementos : List (String × CellMemento)
deriving DecidableEq, Repr

namespace CellCaretaker

/-- `saveState(cellKey, token)`: store a fresh memento, replacing any prior one. -/
def saveState (c : CellCaretaker) (cellKey : String) (token : Option Token)
    (now : Nat) : CellCaretaker :=
  { c with mementos := alSet cellKey (createMemento cellKey token now) c.mementos }

/-- `restoreState(cellKey)`: the stored token, or `none` when no memento exists. -/
def restoreState (c : CellCaretaker) (cellKey : String) : Option Token :=
  match alGet cellKey c.mementos with
  | none => none
  | some memento => restoreFromMemento memento

/-- `hasState(cellKey)`. -/
def hasState (c : CellCaretaker) (cellKey : String) : Bool :=
  (alGet cellKey c.mementos).isSome

/-- `clearState(cellKey)`. -/
def clearState (c : CellCaretaker) (cellKey : String) : CellCaretaker :=
  { c with mementos := alDel cellKey c.mementos }

end CellCaretaker

/-- The whole mutable state of the program: the `activeCells` map, the global
`gameState`, and the global `_cellCaretaker`. -/
structure World where
  activeCells : List (CellKey × GridCell)
  game : GameState
  caretaker : CellCaretaker
deriving DecidableEq, Repr

/-- The cell containing the player, as recomputed throughout the source from
`gameState.player.location`. -/
def playerCell (g : GameState) : CellCoordinates :=
  worldToCell g.player.location.lat g.player.location.lng

/-! Deterministic token spawning. -/

/-- `shouldSpawnToken(i, j)`: inside the spawn radius of the player and the
spawn roll for seed `"i,j"` is below the spawn probability. -/
def shouldSpawnToken (luck : String → Rat) (g : GameState) (i j : Int) : Bool :=
  let distance := cellDistance (playerCell g) { i := i, j := j }
  let withinSpawnRadius := distance ≤ SPAWN_RADIUS
  if ¬withinSpawnRadius then false
  else
    let spawnSeed := toString i ++ "," ++ toString j
    let spawnRoll := luck spawnSeed
    spawnRoll < SPAWN_PROBABILITY

/-- Loop body of `determineTokenValue`: walk the distribution accumulating
probability mass, returning the first value whose cumulative mass beats the
roll. -/
def pickValue (valueRoll : Rat) (cumulativeProbability : Rat) :
    List (Int × Rat) → Option Int
  | [] => none
  | (value, probability) :: rest =>
    let c := cumulativeProbability + probability
    if valueRoll < c then some value else pickValue valueRoll c rest

/-- `determineTokenValue(i, j)`: roll `luck("i,j,value")` against the value
distribution; the final `return 1` is the fallback. -/
def determineTokenValue (luck : String → Rat) (i j : Int) : Int :=
  let valueSeed := toString i ++ "," ++ toString j ++ ",value"
  let valueRoll := luck valueSeed
  (pickValue valueRoll 0 VALUE_DISTRIBUTION).getD 1

/-- `spawnTokenInCell(i, j)`: `none` unless `shouldSpawnToken`, else a token
with the deterministic value. -/
def spawnTokenInCell (luck : String → Rat) (g : GameState) (i j : Int) :
    Option Token :=
  if ¬shouldSpawnToken luck g i j then none
  else some { value := determineTokenValue luck i j }

/-! Cell lifecycle management. -/

/-- `isCellActive(cellKey)`. -/
def isCellActive (w : World) (cellKey : CellKey) : Bool :=
  (alGet cellKey w.activeCells).isSome

/-- `spawnCell(i, j)`: build a fresh cell from the deterministic spawner,
register it in `activeCells` and `gameState.visibleCells`. The call to
`createCellElement` only produces the rendering handle. -/
def spawnCell (luck : String → Rat) (w : World) (i j : Int) : World × GridCell :=
  let bounds := cellToWorldBounds i j
  let token := spawnTokenInCell luck w.game i j
  let newCell : GridCell :=
    { i := i, j := j, token := token, bounds := bounds, isVisible := true }
  let cellKey := cellToKey i j
  ({ w with
      activeCells := alSet cellKey newCell w.activeCells
      game := { w.game with visibleCells := setAdd cellKey w.game.visibleCells } },
   newCell)

/-- `getOrCreateCell(i, j)`: the active cell if present, else a fresh spawn. -/
def getOrCreateCell (luck : String → Rat) (w : World) (i j : Int) :
    World × GridCell :=
  let cellKey := cellToKey i j
  match alGet cellKey w.activeCells with
  | some cell => (w, cell)
  | none => spawnCell luck w i j

/-- `despawnCell(cellKey)`: remove an active cell from both `activeCells` and
`gameState.visibleCells`; a no-op when the key is not active. The
`map.removeLayer` call only releases the rendering handle. -/
def despawnCell (w : World) (cellKey : CellKey) : World :=
  match alGet cellKey w.activeCells with
  | none => w
  | some _ =>
    { w with
        activeCells := alDel cellKey w.activeCells
        game := { w.game with visibleCells := setDel cellKey w.game.visibleCells } }

/-- `cleanupAllCells()`: release every handle and empty both collections. -/
def cleanupAllCells (w : World) : World :=
  { w with
      activeCells := []
      game := { w.game with visibleCells := [] } }

/-! Grid visibility management. -/

/-- The `visibleRange` record computed by `getVisibleCellRange`. -/
structure VisRange where
  minI : Int
  maxI : Int
  minJ : Int
  maxJ : Int
deriving DecidableEq, Repr

/-- `getVisibleCellRange(map)`: the viewport bounds corners come from the
rendering collaborator; the buffer margin is applied to both cell corners. -/
def getVisibleCellRange (southWest northEast : WorldCoordinates) : VisRange :=
  let minCell := worldToCell southWest.lat southWest.lng
  let maxCell := worldToCell northEast.lat northEast.lng
  { minI := minCell.i - VIEWPORT_BUFFER
  , maxI := maxCell.i + VIEWPORT_BUFFER
  , minJ := minCell.j - VIEWPORT_BUFFER
  , maxJ := maxCell.j + VIEWPORT_BUFFER }

/-- Inclusive integer range `[lo..hi]` as a list. -/
def intRange (lo hi : Int) : List Int :=
  (List.range (hi + 1 - lo).toNat).map (fun n => lo + (n : Int))

/-- Row-major enumeration of the cell coordinates of a visible range, in the
order of the nested `for` loops of `updateCellVisibility`. -/
def visRangeCells (r : VisRange) : List (Int × Int) :=
  (intRange r.minI r.maxI).flatMap
    (fun i => (intRange r.minJ r.maxJ).map (fun j => (i, j)))

/-- First-phase loop body of `updateCellVisibility`: activate an inactive cell
via `getOrCreateCell`, or mark an active one visible. -/
def visitRangeCell (luck : String → Rat) (w : World) (ij : Int × Int) : World :=
  let cellKey := cellToKey ij.1 ij.2
  match alGet cellKey w.activeCells with
  | none => (getOrCreateCell luck w ij.1 ij.2).1
  | some cell =>
    { w with activeCells := alSet cellKey { cell with isVisible := true } w.activeCells }

/-- `updateCellVisibility()`: activate every cell of the buffered range, then
despawn every active cell outside it. -/
def updateCellVisibility (luck : String → Rat) (w : World) (r : VisRange) : World :=
  let cells := visRangeCells r
  let currentlyVisible := cells.map (fun ij => cellToKey ij.1 ij.2)
  let w1 := cells.foldl (visitRangeCell luck) w
  let activeKeys := w1.activeCells.map Prod.fst
  activeKeys.foldl
    (fun w' cellKey =>
      if cellKey ∈ currentlyVisible then w' else despawnCell w' cellKey)
    w1

/-! Game logic: interaction predicates and the merge operation. -/

/-- `isCellInteractable(cell)`: within the interaction range of the player. -/
def isCellInteractable (g : GameState) (cell : GridCell) : Bool :=
  let distance := cellDistance (playerCell g) { i := cell.i, j := cell.j }
  distance ≤ INTERACTION_RANGE

/-- `hasToken(cell)`. -/
def hasToken (cell : GridCell) : Bool :=
  cell.token.isSome

/-- `isPlayerHoldingToken()`. -/
def isPlayerHoldingToken (g : GameState) : Bool :=
  g.player.inventory.isSome

/-- `canMergeTokens(heldToken, cellToken)`: equal values. -/
def canMergeTokens (heldToken cellToken : Token) : Bool :=
  heldToken.value = cellToken.value

/-- `mergeTokens(heldToken, cellToken)`: double the held value, credit the
points, and return the merged token. -/
def mergeTokens (heldToken : Token) (_cellToken : Token) (g : GameState) :
    Token × GameState :=
  let newValue := heldToken.value * 2
  ({ value := newValue },
   { g with player := { g.player with points := g.player.points + newValue } })

/-- `checkVictoryCondition(newToken)`: one-way switch of the victory flag. -/
def checkVictoryCondition (newToken : Token) (g : GameState) : GameState :=
  if newToken.value ≥ VICTORY_THRESHOLD ∧ ¬g.isVictoryAchieved then
    { g with isVictoryAchieved := true }
  else g

/-- `attemptMerge(cell)`: merge the held token into the cell's token when both
exist and match; returns whether the merge happened. -/
def attemptMerge (cell : GridCell) (g : GameState) :
    GridCell × GameState × Bool :=
  match g.player.inventory, cell.token with
  | some held, some cellToken =>
    if canMergeTokens held cellToken then
      let (newToken, g1) := mergeTokens held cellToken g
      let cell' := { cell with token := some newToken }
      let g2 := { g1 with player := { g1.player with inventory := none } }
      let g3 := checkVictoryCondition newToken g2
      (cell', g3, true)
    else (cell, g, false)
  | _, _ => (cell, g, false)

/-! Inventory management. -/

/-- `canPickupToken(cell)`. -/
def canPickupToken (cell : GridCell) (g : GameState) : Bool :=
  isCellInteractable g cell && hasToken cell && !isPlayerHoldingToken g

/-- `pickupTokenFromCell(cell)`: move the cell token into the inventory; a
no-op (with a console warning) when the pickup is illegal. -/
def pickupTokenFromCell (cell : GridCell) (g : GameState) :
    GridCell × GameState :=
  if ¬canPickupToken cell g then (cell, g)
  else
    ({ cell with token := none },
     { g with player := { g.player with inventory := cell.token } })

/-- `dropTokenToCell(cell)`: out-of-range or empty-handed drops fail; a drop on
an occupied cell delegates to `attemptMerge`; otherwise the inventory token
moves into the cell. -/
def dropTokenToCell (cell : GridCell) (g : GameState) :
    GridCell × GameState × Bool :=
  if ¬isCellInteractable g cell ∨ g.player.inventory = none then (cell, g, false)
  else if cell.token.isSome then attemptMerge cell g
  else
    ({ cell with token := g.player.inventory },
     { g with player := { g.player with inventory := none } },
     true)

/-! Cell interaction: click dispatch. -/

/-- The `action` values reported by `handleCellClick` to the visual-feedback
layer (`"pickup" | "drop" | "merge" | "invalid" | "outOfRange"`). -/
inductive ClickAction where
  | pickup
  | drop
  | merge
  | invalid
  | outOfRange
deriving DecidableEq, Repr

/-- `handleCellClick(cell)`: reject out-of-range clicks, else dispatch to
pickup, merge, or drop by the token/inventory configuration. The status-panel
and highlight effects are cosmetic and omitted. -/
def handleCellClick (cell : GridCell) (g : GameState) :
    GridCell × GameState × ClickAction :=
  if ¬isCellInteractable g cell then (cell, g, ClickAction.outOfRange)
  else if hasToken cell && !isPlayerHoldingToken g then
    let (cell', g') := pickupTokenFromCell cell g
    (cell', g', ClickAction.pickup)
  else if hasToken cell && isPlayerHoldingToken g then
    let (cell', g', success) := attemptMerge cell g
    (cell', g', if success then ClickAction.merge else ClickAction.invalid)
  else if !hasToken cell && isPlayerHoldingToken g then
    let (cell', g', success) := dropTokenToCell cell g
    (cell', g', if success then ClickAction.drop else ClickAction.invalid)
  else (cell, g, ClickAction.invalid)

/-- World-level click on an active cell: the clicked `GridCell` object is the
entry of `activeCells`, so its mutation is written back to the map. Clicks
reach the handler only through the rectangle of an active cell. -/
def handleCellClickW (w : World) (cellKey : CellKey) : World :=
  match alGet cellKey w.activeCells with
  | none => w
  | some cell =>
    let (cell', g', _action) := handleCellClick cell w.game
    { w with activeCells := alSet cellKey cell' w.activeCells, game := g' }

/-! Player movement. -/

/-- The five movement buttons. -/
inductive Direction where
  | north
  | south
  | east
  | west
  | center
deriving DecidableEq, Repr

/-- `movePlayer(direction)`: shift the player location one tile (or recenter);
`map.setView` only moves the camera. -/
def movePlayer (w : World) (direction : Direction) : World :=
  let lat := w.game.player.location.lat
  let lng := w.game.player.location.lng
  let newLocation : WorldCoordinates :=
    match direction with
    | Direction.north => { lat := lat + TILE_DEGREES, lng := lng }
    | Direction.south => { lat := lat - TILE_DEGREES, lng := lng }
    | Direction.east => { lat := lat, lng := lng + TILE_DEGREES }
    | Direction.west => { lat := lat, lng := lng - TILE_DEGREES }
    | Direction.center => CLASSROOM_LOCATION
  { w with game := { w.game with player := { w.game.player with location := newLocation } } }

/-! The event surface of the program as a step system: every game-state
mutation happens inside one of these handlers. -/

/-- An externally triggered operation: a click on an active cell's rectangle,
a movement-button press, a viewport change (`moveend` → `handleMapMove`) with
the bounds reported by the map, or the `cleanupAllCells` call. -/
inductive Op where
  | click (cellKey : CellKey)
  | move (direction : Direction)
  | viewportChange (southWest northEast : WorldCoordinates)
  | cleanup
deriving DecidableEq, Repr

/-- One step of the program: apply an operation to the world. -/
def applyOp (luck : String → Rat) (op : Op) (w : World) : World :=
  match op with
  | Op.click cellKey => handleCellClickW w cellKey
  | Op.move direction => movePlayer w direction
  | Op.viewportChange southWest northEast =>
    updateCellVisibility luck w (getVisibleCellRange southWest northEast)
  | Op.cleanup => cleanupAllCells w

/-- A trace of operations applied in order. -/
def applyOps (luck : String → Rat) (ops : List Op) (w : World) : World :=
  ops.foldl (fun w' op => applyOp luck op w') w

/-- The initial `gameState` literal of the source. -/
def initialWorld : World :=
  { activeCells := []
  , game :=
    { player := { inventory := none, location := CLASSROOM_LOCATION, points := 0 }
    , visibleCells := []
    , victoryCondition := VICTORY_THRESHOLD
    , isVictoryAchieved := false }
  , caretaker := { mementos := [] } }

/-! Derived definitions used by the verification statements. -/

/-- The key-set invariant tying `gameState.visibleCells` to the `activeCells`
map. -/
def cellsInvariant (w : World) : Prop :=
  ∀ k : CellKey, k ∈ w.game.visibleCells ↔ (alGet k w.activeCells).isSome = true

/-- Value/cumulative-mass pairs of a distribution table, in enumeration
order; stated from the specification's description of the value walk. -/
def specCumulative : List (Int × Rat) → Rat → List (Int × Rat)
  | [], _ => []
  | (value, probability) :: rest, acc =>
    (value, acc + probability) :: specCumulative rest (acc + probability)

/-- The first table entry whose cumulative probability mass exceeds the roll,
as the specification words it. -/
def specFirstValueExceeding (roll : Rat) (table : List (Int × Rat)) : Option Int :=
  ((specCumulative table 0).find? (fun vc => roll < vc.2)).map Prod.fst

/-- The smallest configured value of a distribution table. -/
def specSmallestValue (table : List (Int × Rat)) : Int :=
  ((table.map Prod.fst).min?).getD 1

/-- The token value the specification prescribes for a roll: the first value
whose cumulative mass exceeds the roll, with the smallest configured value as
fallback. -/
def specSpawnValue (roll : Rat) : Int :=
  (specFirstValueExceeding roll VALUE_DISTRIBUTION).getD
    (specSmallestValue VALUE_DISTRIBUTION)

/-- Whether a click on a given cell performs a merge whose resulting token
reaches the victory threshold: the cell is interactable, both the inventory
and the cell hold tokens, the values match, and doubling reaches the
threshold. -/
def mergeVictoryTrigger (cell : GridCell) (g : GameState) : Bool :=
  match g.player.inventory, cell.token with
  | some held, some cellToken =>
    isCellInteractable g cell && (held.value = cellToken.value) &&
      (VICTORY_THRESHOLD ≤ held.value * 2)
  | _, _ => false

/-- Whether a click operation performs a victory-reaching merge: the clicked
key is active and the merge trigger fires on its cell. -/
def clickVictoryTrigger (w : World) (cellKey : CellKey) : Bool :=
  match alGet cellKey w.activeCells with
  | none => false
  | some cell => mergeVictoryTrigger cell w.game

/-- Whether an operation performs a victory-reaching merge. -/
def victoryTrigger (w : World) : Op → Bool
  | Op.click cellKey => clickVictoryTrigger w cellKey
  | _ => false

/-! Concrete scenario data used to evaluate the code on explicit inputs. -/

/-- A concrete seed function: every roll is `0`, which lies in `[0, 1)`; every
cell in spawn range then spawns a token of value `1`. -/
def luckZero : String → Rat := fun _ => 0

/-- A world with the player at the coordinate origin, an empty grid, and a
caretaker already holding a snapshot (a token of value `2048`) for cell
`(0,0)`. -/
def caretakerWorld : World :=
  { activeCells := []
  , game :=
    { player :=
      { inventory := none, location := { lat := 0, lng := 0 }, points := 0 }
    , visibleCells := []
    , victoryCondition := VICTORY_THRESHOLD
    , isVictoryAchieved := false }
  , caretaker :=
    { mementos :=
      [("0,0",
        { cellKey := "0,0", token := some { value := 2048 }, timestamp := 5 })] } }

/-- A world with the player at the origin and one active, modified cell at
`(100, 100)` holding a token of value `7`, far outside any origin viewport. -/
def farCellWorld : World :=
  { activeCells :=
    [("100,100",
      { i := 100, j := 100, token := some { value := 7 }
      , bounds := cellToWorldBounds 100 100, isVisible := true })]
  , game :=
    { player :=
      { inventory := none, location := { lat := 0, lng := 0 }, points := 0 }
    , visibleCells := ["100,100"]
    , victoryCondition := VICTORY_THRESHOLD
    , isVictoryAchieved := false }
  , caretaker := { mementos := [] } }

/-- The buffered viewport range of a degenerate viewport at the origin. -/
def originRange : VisRange :=
  getVisibleCellRange { lat := 0, lng := 0 } { lat := 0, lng := 0 }

/-- A concrete trace from the initial world: one viewport pass around the
classroom location, then nine moves east (each one tile), which puts the
player's cell nine columns away from its starting cell. -/
def nineEastOps : List Op :=
  [Op.viewportChange CLASSROOM_LOCATION CLASSROOM_LOCATION] ++
  List.replicate 9 (Op.move Direction.east)

/-- The key of the player's starting cell at the classroom location. -/
def classroomKey : CellKey := "369979,-1220571"

/-- A small world used as witness data: the player at the origin and one
active unmodified cell at `(0,0)` whose token is its spawn output. -/
def witnessWorld : World :=
  { activeCells :=
    [("0,0",
      { i := 0, j := 0, token := some { value := 1 }
      , bounds := cellToWorldBounds 0 0, isVisible := true })]
  , game :=
    { player :=
      { inventory := none, location := { lat := 0, lng := 0 }, points := 0 }
    , visibleCells := ["0,0"]
    , victoryCondition := VICTORY_THRESHOLD
    , isVictoryAchieved := false }
  , caretaker := { mementos := [] } }

/-! Helper lemmas about the map and set models. -/

theorem alGet_alSet_self {β : Type} (k : String) (v : β) (m : List (String × β)) :
    alGet k (alSet k v m) = some v := by
  induction m with
  | nil => simp [alGet, alSet]
  | cons hd tl ih =>
    obtain ⟨k', v'⟩ := hd
    by_cases h : k' = k
    · simp [alGet, alSet, h]
    · simp [alGet, alSet, h, ih]

theorem alGet_alSet_ne {β : Type} {k k' : String} (h : k' ≠ k) (v : β)
    (m : List (String × β)) : alGet k (alSet k' v m) = alGet k m := by
  induction m with
  | nil => simp [alGet, alSet, h]
  | cons hd tl ih =>
    obtain ⟨k₀, v₀⟩ := hd
    by_cases h₀ : k₀ = k'
    · subst h₀
      simp [alGet, alSet, h]
    · by_cases h₁ : k₀ = k <;> simp [alGet, alSet, h₀, h₁, ih, Ne.symm h]

theorem alGet_alDel_self {β : Type} (k : String) (m : List (String × β)) :
    alGet k (alDel k m) = none := by
  induction m with
  | nil => simp [alGet, alDel]
  | cons hd tl ih =>
    obtain ⟨k₀, v₀⟩ := hd
    by_cases h₀ : k₀ = k <;> simp [alGet, alDel, h₀, ih]

theorem alGet_alDel_ne {β : Type} {k k' : String} (h : k' ≠ k)
    (m : List (String × β)) : alGet k (alDel k' m) = alGet k m := by
  induction m with
  | nil => simp [alGet, alDel]
  | cons hd tl ih =>
    obtain ⟨k₀, v₀⟩ := hd
    by_cases h₀ : k₀ = k'
    · subst h₀
      simp [alGet, alDel, h, ih]
    · by_cases h₁ : k₀ = k <;> simp [alGet, alDel, h₀, h₁, ih, Ne.symm h]

theorem alSet_of_alGet_eq {β : Type} {k : String} {v : β} {m : List (String × β)}
    (h : alGet k m = some v) : alSet k v m = m := by
  induction m with
  | nil => simp [alGet] at h
  | cons hd tl ih =>
    obtain ⟨k₀, v₀⟩ := hd
    by_cases h₀ : k₀ = k
    · simp [alGet, h₀] at h
      simp [alSet, h₀, h]
    · simp [alGet, h₀] at h
      simp [alSet, h₀, ih h]

theorem mem_setAdd {k k' : String} {s : List String} :
    k' ∈ setAdd k s ↔ k' ∈ s ∨ k' = k := by
  by_cases h : k ∈ s
  · simp only [setAdd, if_pos h]
    constructor
    · exact Or.inl
    · rintro (h' | rfl) <;> [exact h'; exact h]
  · simp [setAdd, if_neg h]

theorem mem_setDel {k k' : String} {s : List String} :
    k' ∈ setDel k s ↔ k' ∈ s ∧ k' ≠ k := by
  simp [setDel, List.mem_filter]

/-! Claim theorems. -/

/-- C6: saving a token state for a key and then restoring that key returns the
same token state; the snapshot stored for the key is the fresh memento,
replacing any prior one (other keys are untouched); restoring a key with no
stored snapshot returns `none`. -/
theorem saveState_restoreState_roundTrip (c : CellCaretaker) (k : String)
    (t : Option Token) (now : Nat) :
    (c.saveState k t now).restoreState k = t ∧
    alGet k (c.saveState k t now).mementos = some (createMemento k t now) ∧
    (∀ k' : String, k' ≠ k →
      alGet k' (c.saveState k t now).mementos = alGet k' c.mementos) ∧
    (c.hasState k = false → c.restoreState k = none) := by
  refine ⟨?_, ?_, ?_, ?_⟩
  · simp [CellCaretaker.saveState, CellCaretaker.restoreState, alGet_alSet_self,
      createMemento, restoreFromMemento]
  · simp [CellCaretaker.saveState, alGet_alSet_self]
  · intro k' hk
    simp [CellCaretaker.saveState, alGet_alSet_ne (fun h => hk h.symm)]
  · intro h
    unfold CellCaretaker.hasState at h
    cases hh : alGet k c.mementos with
    | none => simp [CellCaretaker.restoreState, hh]
    | some m => rw [hh] at h; simp at h

/-- C6 witness: a concrete round trip through the caretaker. -/
theorem saveState_restoreState_roundTrip_witness :
    (CellCaretaker.saveState { mementos := [] } "3,4" (some { value := 2 })
      7).restoreState "3,4" = some { value := 2 } ∧
    CellCaretaker.restoreState { mementos := [] } "9,9" = none :=
  ⟨(saveState_restoreState_roundTrip { mementos := [] } "3,4"
      (some { value := 2 }) 7).1,
   (saveState_restoreState_roundTrip { mementos := [] } "9,9" none 0).2.2.2
     (by decide)⟩

/-- C7: `worldToCell` floors each coordinate by the tile size, and the world
bounds of the resulting cell contain the original point: the southwest corner
is componentwise at most the point, which lies strictly below the northeast
corner. -/
theorem worldToCell_bounds_roundTrip (lat lng : Rat) :
    (worldToCell lat lng).i = Rat.floor (lat / TILE_DEGREES) ∧
    (worldToCell lat lng).j = Rat.floor (lng / TILE_DEGREES) ∧
    (cellToWorldBounds (worldToCell lat lng).i (worldToCell lat lng).j).1.1 ≤ lat ∧
    (cellToWorldBounds (worldToCell lat lng).i (worldToCell lat lng).j).1.2 ≤ lng ∧
    lat < (cellToWorldBounds (worldToCell lat lng).i (worldToCell lat lng).j).2.1 ∧
    lng < (cellToWorldBounds (worldToCell lat lng).i (worldToCell lat lng).j).2.2 := by
  have hT : (0 : Rat) < TILE_DEGREES := by norm_num [TILE_DEGREES]
  have hfloor : ∀ q : Rat, Rat.floor q = ⌊q⌋ := fun q => (Rat.floor_def' q).trans
    (Rat.floor_def.symm)
  refine ⟨rfl, rfl, ?_, ?_, ?_, ?_⟩
  · have h := Int.floor_le (lat / TILE_DEGREES)
    simp only [worldToCell, cellToWorldBounds, hfloor]
    exact (le_div_iff₀ hT).mp h
  · have h := Int.floor_le (lng / TILE_DEGREES)
    simp only [worldToCell, cellToWorldBounds, hfloor]
    exact (le_div_iff₀ hT).mp h
  · have h := Int.lt_floor_add_one (lat / TILE_DEGREES)
    simp only [worldToCell, cellToWorldBounds, hfloor]
    have h' : lat / TILE_DEGREES < ((⌊lat / TILE_DEGREES⌋ : Rat) + 1) := h
    calc lat = lat / TILE_DEGREES * TILE_DEGREES := by field_simp
    _ < ((⌊lat / TILE_DEGREES⌋ : Rat) + 1) * TILE_DEGREES := by
        exact mul_lt_mul_of_pos_right h' hT
    _ = _ := by ring
  · have h := Int.lt_floor_add_one (lng / TILE_DEGREES)
    simp only [worldToCell, cellToWorldBounds, hfloor]
    have h' : lng / TILE_DEGREES < ((⌊lng / TILE_DEGREES⌋ : Rat) + 1) := h
    calc lng = lng / TILE_DEGREES * TILE_DEGREES := by field_simp
    _ < ((⌊lng / TILE_DEGREES⌋ : Rat) + 1) * TILE_DEGREES := by
        exact mul_lt_mul_of_pos_right h' hT
    _ = _ := by ring

/-- C10: the cell-lifecycle operations preserve the invariant that
`gameState.visibleCells` is exactly the key set of the `activeCells` map:
`spawnCell` registers the new key in both, `despawnCell` removes the key from
both and is the identity on a key that is not active, and `cleanupAllCells`
empties both. -/
theorem lifecycle_preserves_cellsInvariant (luck : String → Rat) (w : World)
    (i j : Int) (cellKey : CellKey) (h : cellsInvariant w) :
    cellsInvariant (spawnCell luck w i j).1 ∧
    (cellToKey i j ∈ (spawnCell luck w i j).1.game.visibleCells ∧
      (alGet (cellToKey i j) (spawnCell luck w i j).1.activeCells).isSome = true) ∧
    cellsInvariant (despawnCell w cellKey) ∧
    (alGet cellKey (despawnCell w cellKey).activeCells = none ∧
      cellKey ∉ (despawnCell w cellKey).game.visibleCells) ∧
    (alGet cellKey w.activeCells = none → despawnCell w cellKey = w) ∧
    cellsInvariant (cleanupAllCells w) ∧
    (cleanupAllCells w).activeCells = [] ∧
    (cleanupAllCells w).game.visibleCells = [] := by
  refine ⟨?_, ?_, ?_, ?_, ?_, ?_, rfl, rfl⟩
  · intro k
    simp only [spawnCell, mem_setAdd]
    by_cases hk : k = cellToKey i j
    · subst hk
      simp [alGet_alSet_self]
    · simp [alGet_alSet_ne (fun hh => hk hh.symm), hk, h k]
  · constructor
    · simp [spawnCell, mem_setAdd]
    · simp [spawnCell, alGet_alSet_self]
  · intro k
    cases hget : alGet cellKey w.activeCells with
    | none => simpa [despawnCell, hget] using h k
    | some cell =>
      by_cases hk : k = cellKey
      · subst hk
        simp [despawnCell, hget, mem_setDel, alGet_alDel_self]
      · simp [despawnCell, hget, mem_setDel, hk,
          alGet_alDel_ne (fun hh => hk hh.symm), h k]
  · cases hget : alGet cellKey w.activeCells with
    | none =>
      refine ⟨by simp [despawnCell, hget], ?_⟩
      intro hmem
      have := (h cellKey).mp (by simpa [despawnCell, hget] using hmem)
      simp [hget] at this
    | some cell =>
      constructor
      · simp [despawnCell, hget, alGet_alDel_self]
      · simp [despawnCell, hget, mem_setDel]
  · intro hget
    simp [despawnCell, hget]
  · intro k
    simp [cleanupAllCells, alGet]

/-- C10 witness: the invariant holds at the empty initial world, so the
theorem applies there. -/
theorem lifecycle_preserves_cellsInvariant_witness :
    cellsInvariant (spawnCell luckZero initialWorld 0 0).1 ∧
    cellsInvariant (despawnCell initialWorld "0,0") :=
  ⟨(lifecycle_preserves_cellsInvariant luckZero initialWorld 0 0 "0,0"
      (fun k => by simp [initialWorld, alGet])).1,
   (lifecycle_preserves_cellsInvariant luckZero initialWorld 0 0 "0,0"
      (fun k => by simp [initialWorld, alGet])).2.2.1⟩

/-- The victory check never touches the player substate. -/
theorem checkVictoryCondition_player (t : Token) (g : GameState) :
    (checkVictoryCondition t g).player = g.player := by
  unfold checkVictoryCondition
  split <;> rfl

/-- C3: when the inventory and an interactable cell hold tokens of one value
`V`, `attemptMerge` succeeds, the cell's token becomes a token of value `2V`,
the inventory empties, and the points grow by exactly `2V`; when the values
differ, or either token is absent, `attemptMerge` returns failure and leaves
the cell, the inventory and the points exactly as they were. -/
theorem attemptMerge_correct (cell : GridCell) (g : GameState) :
    (∀ held cellToken : Token,
      g.player.inventory = some held → cell.token = some cellToken →
      isCellInteractable g cell = true → held.value = cellToken.value →
      (attemptMerge cell g).2.2 = true ∧
      (attemptMerge cell g).1.token = some { value := held.value * 2 } ∧
      (attemptMerge cell g).2.1.player.inventory = none ∧
      (attemptMerge cell g).2.1.player.points = g.player.points + held.value * 2) ∧
    (∀ held cellToken : Token,
      g.player.inventory = some held → cell.token = some cellToken →
      held.value ≠ cellToken.value → attemptMerge cell g = (cell, g, false)) ∧
    (g.player.inventory = none → attemptMerge cell g = (cell, g, false)) ∧
    (cell.token = none → attemptMerge cell g = (cell, g, false)) := by
  refine ⟨?_, ?_, ?_, ?_⟩
  · intro held cellToken hinv htok _hint hval
    have heq : canMergeTokens held cellToken = true := by
      simp [canMergeTokens, hval]
    refine ⟨?_, ?_, ?_, ?_⟩ <;>
      simp [attemptMerge, hinv, htok, heq, mergeTokens,
        checkVictoryCondition_player]
  · intro held cellToken hinv htok hval
    have heq : canMergeTokens held cellToken = false := by
      simp [canMergeTokens, hval]
    simp [attemptMerge, hinv, htok, heq]
  · intro hinv
    simp [attemptMerge, hinv]
  · intro htok
    cases hinv : g.player.inventory <;> simp [attemptMerge, hinv, htok]

/-- C3 witness: a concrete equal-value merge and a concrete unequal-value
failure, both within interaction range. -/
theorem attemptMerge_correct_witness :
    (attemptMerge
      { i := 0, j := 0, token := some { value := 4 }
      , bounds := cellToWorldBounds 0 0, isVisible := true }
      { player :=
        { inventory := some { value := 4 }
        , location := { lat := 0, lng := 0 }, points := 3 }
      , visibleCells := ["0,0"], victoryCondition := VICTORY_THRESHOLD
      , isVictoryAchieved := false }).2.1.player.points = 11 ∧
    attemptMerge
      { i := 0, j := 0, token := some { value := 4 }
      , bounds := cellToWorldBounds 0 0, isVisible := true }
      { player :=
        { inventory := some { value := 2 }
        , location := { lat := 0, lng := 0 }, points := 3 }
      , visibleCells := ["0,0"], victoryCondition := VICTORY_THRESHOLD
      , isVictoryAchieved := false } =
      ({ i := 0, j := 0, token := some { value := 4 }
       , bounds := cellToWorldBounds 0 0, isVisible := true },
       { player :=
         { inventory := some { value := 2 }
         , location := { lat := 0, lng := 0 }, points := 3 }
       , visibleCells := ["0,0"], victoryCondition := VICTORY_THRESHOLD
       , isVictoryAchieved := false },
       false) := by
  constructor
  · have h := ((attemptMerge_correct
      { i := 0, j := 0, token := some { value := 4 }
      , bounds := cellToWorldBounds 0 0, isVisible := true }
      { player :=
        { inventory := some { value := 4 }
        , location := { lat := 0, lng := 0 }, points := 3 }
      , visibleCells := ["0,0"], victoryCondition := VICTORY_THRESHOLD
      , isVictoryAchieved := false }).1 { value := 4 } { value := 4 }
      rfl rfl (by with_unfolding_all decide) rfl).2.2.2
    simpa using h
  · exact (attemptMerge_correct _ _).2.1 { value := 2 } { value := 4 }
      rfl rfl (by decide)

/-- C5: an interaction on a cell farther from the player's cell than the
interaction range mutates nothing: the click handler leaves the whole world
unchanged and reports `outOfRange`, and the pickup and drop entry points
reject the attempt with no change to the cell, the inventory or the points. -/
theorem outOfRange_rejects_without_mutation (w : World) (cellKey : CellKey)
    (cell : GridCell) (hget : alGet cellKey w.activeCells = some cell)
    (hfar : INTERACTION_RANGE <
      cellDistance (playerCell w.game) { i := cell.i, j := cell.j }) :
    handleCellClickW w cellKey = w ∧
    handleCellClick cell w.game = (cell, w.game, ClickAction.outOfRange) ∧
    pickupTokenFromCell cell w.game = (cell, w.game) ∧
    dropTokenToCell cell w.game = (cell, w.game, false) := by
  have hint : isCellInteractable w.game cell = false := by
    simp only [isCellInteractable, decide_eq_false_iff_not, not_le]
    exact hfar
  have hclick : handleCellClick cell w.game = (cell, w.game, ClickAction.outOfRange) := by
    simp [handleCellClick, hint]
  refine ⟨?_, hclick, ?_, ?_⟩
  · simp only [handleCellClickW, hget, hclick]
    rw [alSet_of_alGet_eq hget]
  · simp [pickupTokenFromCell, canPickupToken, hint]
  · simp [dropTokenToCell, hint]

/-- C5 witness: clicking the far cell of `farCellWorld` changes nothing. -/
theorem outOfRange_rejects_without_mutation_witness :
    handleCellClickW farCellWorld "100,100" = farCellWorld :=
  (outOfRange_rejects_without_mutation farCellWorld "100,100"
    { i := 100, j := 100, token := some { value := 7 }
    , bounds := cellToWorldBounds 100 100, isVisible := true }
    rfl (by with_unfolding_all decide)).1

/-- C4: `handleCellClick` dispatches by precedence — out-of-range clicks are
reported `outOfRange` with no state change; on an interactable cell, a token
with an empty inventory is picked up; a token with a held token attempts the
merge, which reports `merge` on matching values and `invalid` (with no state
change) on differing values; an empty cell with a held token performs the
drop; and an empty cell with an empty inventory is a no-op reported
`invalid`. -/
theorem handleCellClick_dispatch (cell : GridCell) (g : GameState) :
    (isCellInteractable g cell = false →
      handleCellClick cell g = (cell, g, ClickAction.outOfRange)) ∧
    (isCellInteractable g cell = true → cell.token.isSome = true →
      g.player.inventory = none →
      handleCellClick cell g =
        ({ cell with token := none },
         { g with player := { g.player with inventory := cell.token } },
         ClickAction.pickup)) ∧
    (∀ held cellToken : Token, isCellInteractable g cell = true →
      cell.token = some cellToken → g.player.inventory = some held →
      held.value = cellToken.value →
      (handleCellClick cell g).2.2 = ClickAction.merge ∧
      (handleCellClick cell g).1.token = some { value := held.value * 2 } ∧
      (handleCellClick cell g).2.1.player.inventory = none) ∧
    (∀ held cellToken : Token, isCellInteractable g cell = true →
      cell.token = some cellToken → g.player.inventory = some held →
      held.value ≠ cellToken.value →
      handleCellClick cell g = (cell, g, ClickAction.invalid)) ∧
    (isCellInteractable g cell = true → cell.token = none →
      g.player.inventory.isSome = true →
      handleCellClick cell g =
        ({ cell with token := g.player.inventory },
         { g with player := { g.player with inventory := none } },
         ClickAction.drop)) ∧
    (isCellInteractable g cell = true → cell.token = none →
      g.player.inventory = none →
      handleCellClick cell g = (cell, g, ClickAction.invalid)) := by
  refine ⟨?_, ?_, ?_, ?_, ?_, ?_⟩
  · intro hint
    simp [handleCellClick, hint]
  · intro hint htok hinv
    simp [handleCellClick, hint, hasToken, htok, isPlayerHoldingToken, hinv,
      pickupTokenFromCell, canPickupToken]
  · intro held cellToken hint htok hinv hval
    have heq : canMergeTokens held cellToken = true := by
      simp [canMergeTokens, hval]
    refine ⟨?_, ?_, ?_⟩ <;>
      simp [handleCellClick, hint, hasToken, htok, isPlayerHoldingToken, hinv,
        attemptMerge, heq, mergeTokens, checkVictoryCondition_player]
  · intro held cellToken hint htok hinv hval
    have heq : canMergeTokens held cellToken = false := by
      simp [canMergeTokens, hval]
    simp [handleCellClick, hint, hasToken, htok, isPlayerHoldingToken, hinv,
      attemptMerge, heq]
  · intro hint htok hinv
    obtain ⟨t, ht⟩ := Option.isSome_iff_exists.mp hinv
    simp [handleCellClick, hint, hasToken, htok, isPlayerHoldingToken, hinv,
      dropTokenToCell, ht]
  · intro hint htok hinv
    simp [handleCellClick, hint, hasToken, htok, isPlayerHoldingToken, hinv]

/-- C4 witness: concrete dispatches — a pickup on an in-range token cell with
an empty inventory, and an `invalid` report for a mismatched merge. -/
theorem handleCellClick_dispatch_witness :
    handleCellClick
      { i := 2, j := 2, token := some { value := 2 }
      , bounds := cellToWorldBounds 2 2, isVisible := true }
      { player :=
        { inventory := none, location := { lat := 0, lng := 0 }, points := 0 }
      , visibleCells := ["2,2"], victoryCondition := VICTORY_THRESHOLD
      , isVictoryAchieved := false } =
      ({ i := 2, j := 2, token := none
       , bounds := cellToWorldBounds 2 2, isVisible := true },
       { player :=
         { inventory := some { value := 2 }
         , location := { lat := 0, lng := 0 }, points := 0 }
       , visibleCells := ["2,2"], victoryCondition := VICTORY_THRESHOLD
       , isVictoryAchieved := false },
       ClickAction.pickup) ∧
    handleCellClick
      { i := 2, j := 2, token := some { value := 4 }
      , bounds := cellToWorldBounds 2 2, isVisible := true }
      { player :=
        { inventory := some { value := 2 }
        , location := { lat := 0, lng := 0 }, points := 0 }
      , visibleCells := ["2,2"], victoryCondition := VICTORY_THRESHOLD
      , isVictoryAchieved := false } =
      ({ i := 2, j := 2, token := some { value := 4 }
       , bounds := cellToWorldBounds 2 2, isVisible := true },
       { player :=
         { inventory := some { value := 2 }
         , location := { lat := 0, lng := 0 }, points := 0 }
       , visibleCells := ["2,2"], victoryCondition := VICTORY_THRESHOLD
       , isVictoryAchieved := false },
       ClickAction.invalid) := by
  constructor
  · exact (handleCellClick_dispatch
      { i := 2, j := 2, token := some { value := 2 }
      , bounds := cellToWorldBounds 2 2, isVisible := true }
      { player :=
        { inventory := none, location := { lat := 0, lng := 0 }, points := 0 }
      , visibleCells := ["2,2"], victoryCondition := VICTORY_THRESHOLD
      , isVictoryAchieved := false }).2.1
      (by with_unfolding_all decide) rfl rfl
  · exact (handleCellClick_dispatch
      { i := 2, j := 2, token := some { value := 4 }
      , bounds := cellToWorldBounds 2 2, isVisible := true }
      { player :=
        { inventory := some { value := 2 }
        , location := { lat := 0, lng := 0 }, points := 0 }
      , visibleCells := ["2,2"], victoryCondition := VICTORY_THRESHOLD
      , isVictoryAchieved := false }).2.2.2.1 { value := 2 } { value := 4 }
      (by with_unfolding_all decide) rfl rfl (by decide)

/-- The source's cumulative walk agrees with the specification's description
of the value draw for the configured distribution table. -/
theorem determineTokenValue_eq_specSpawnValue (luck : String → Rat) (i j : Int) :
    determineTokenValue luck i j =
      specSpawnValue (luck (toString i ++ "," ++ toString j ++ ",value")) := by
  simp only [determineTokenValue]
  generalize luck (toString i ++ "," ++ toString j ++ ",value") = r
  have hmin : (List.min? ([1, 2, 4] : List Int)) = some 1 := by decide
  unfold specSpawnValue specFirstValueExceeding specSmallestValue
  simp only [VALUE_DISTRIBUTION, pickValue, specCumulative, List.find?,
    List.map, hmin]
  simp only [zero_add, one_div]
  split_ifs with h1 h2 h3
  · simp [h1]
  · simp [h1, h2]
  · simp [h1, h2, h3]
  · simp [h1, h2, h3]

/-- C8: `spawnTokenInCell` returns no token exactly when the cell lies beyond
the spawn radius of the player's cell or the spawn roll reaches the spawn
probability; otherwise it returns the token whose value is the first entry of
the configured distribution table, in enumeration order, whose cumulative
probability mass exceeds the value roll, falling back to the smallest
configured value. -/
theorem spawnTokenInCell_spec (luck : String → Rat) (g : GameState) (i j : Int) :
    spawnTokenInCell luck g i j =
      if SPAWN_RADIUS < cellDistance (playerCell g) { i := i, j := j } ∨
          SPAWN_PROBABILITY ≤ luck (toString i ++ "," ++ toString j) then
        none
      else
        some { value :=
          specSpawnValue (luck (toString i ++ "," ++ toString j ++ ",value")) } := by
  unfold spawnTokenInCell shouldSpawnToken
  rw [determineTokenValue_eq_specSpawnValue]
  by_cases hdist : SPAWN_RADIUS < cellDistance (playerCell g) { i := i, j := j }
  · simp [not_le.mpr hdist, hdist]
  · by_cases hroll : SPAWN_PROBABILITY ≤ luck (toString i ++ "," ++ toString j)
    · simp [not_lt.mp hdist, hdist, hroll, not_lt.mpr hroll]
    · simp [not_lt.mp hdist, hdist, hroll, not_le.mp hroll]

set_option maxRecDepth 1000000 in
/-- C2 counterexample: starting from the initial world, one viewport pass
spawns the player's own cell with a token of value `1`; after nine eastward
moves the cell still holds that unmodified spawn token, but despawning it and
re-activating it yields a cell with no token at all, because the spawner now
measures the distance from the player's new cell (nine columns away, beyond
the spawn radius of eight). -/
theorem despawn_respawn_counterexample :
    (alGet classroomKey
      (applyOps luckZero
        [Op.viewportChange CLASSROOM_LOCATION CLASSROOM_LOCATION]
        initialWorld).activeCells).map (fun cell => cell.token) =
      some (some { value := 1 }) ∧
    (alGet classroomKey
      (applyOps luckZero nineEastOps initialWorld).activeCells).map
        (fun cell => cell.token) = some (some { value := 1 }) ∧
    (getOrCreateCell luckZero
      (despawnCell (applyOps luckZero nineEastOps initialWorld) classroomKey)
      369979 (-1220571)).2.token = none ∧
    some ({ value := 1 } : Token) ≠ (none : Option Token) := by
  refine ⟨?_, ?_, ?_, by decide⟩ <;> with_unfolding_all decide

/-- C2 (amended): despawning an active, unmodified cell and re-activating it
through `getOrCreateCell` reproduces the original spawn token, provided the
spawner sees the same player cell at both spawns — in particular whenever the
player has not moved in between; the equivalence does not survive arbitrary
player movement. -/
theorem despawn_respawn_equivalence (luck : String → Rat) (w : World)
    (i j : Int) (cell : GridCell)
    (hget : alGet (cellToKey i j) w.activeCells = some cell)
    (hunmod : cell.token = spawnTokenInCell luck w.game i j) :
    (getOrCreateCell luck (despawnCell w (cellToKey i j)) i j).2.token =
      cell.token := by
  simp only [despawnCell, hget]
  simp only [getOrCreateCell, alGet_alDel_self]
  simp only [spawnCell]
  exact hunmod.symm

/-- C2 witness: the amended equivalence at a concrete world whose single
active cell holds exactly its spawn token. -/
theorem despawn_respawn_equivalence_witness :
    (getOrCreateCell luckZero (despawnCell witnessWorld (cellToKey 0 0))
      0 0).2.token = some { value := 1 } :=
  despawn_respawn_equivalence luckZero witnessWorld 0 0
    { i := 0, j := 0, token := some { value := 1 }
    , bounds := cellToWorldBounds 0 0, isVisible := true }
    rfl (by with_unfolding_all decide)

/-! Lemmas for the victory-flag analysis. -/

/-- The victory check leaves the flag set, and sets it exactly when the new
token reaches the threshold. -/
theorem checkVictoryCondition_victory (t : Token) (g : GameState) :
    (checkVictoryCondition t g).isVictoryAchieved =
      (g.isVictoryAchieved || decide (VICTORY_THRESHOLD ≤ t.value)) := by
  unfold checkVictoryCondition
  by_cases ht : VICTORY_THRESHOLD ≤ t.value
  · by_cases hv : g.isVictoryAchieved = true
    · simp [ht, hv]
    · simp only [Bool.not_eq_true] at hv
      simp [ht, hv, ge_iff_le]
  · simp [ht, ge_iff_le]

/-- How one click changes the victory flag: it stays set, and becomes set
exactly when the click performs a merge whose new token reaches the
threshold. -/
theorem handleCellClick_victory (cell : GridCell) (g : GameState) :
    (handleCellClick cell g).2.1.isVictoryAchieved =
      (g.isVictoryAchieved || mergeVictoryTrigger cell g) := by
  by_cases hint : isCellInteractable g cell = true
  · cases hinv : g.player.inventory with
    | none =>
      cases htok : cell.token with
      | none =>
        simp [handleCellClick, hint, hasToken, htok, isPlayerHoldingToken,
          hinv, mergeVictoryTrigger]
      | some cellToken =>
        simp [handleCellClick, hint, hasToken, htok, isPlayerHoldingToken,
          hinv, mergeVictoryTrigger, pickupTokenFromCell, canPickupToken]
    | some held =>
      cases htok : cell.token with
      | none =>
        simp [handleCellClick, hint, hasToken, htok, isPlayerHoldingToken,
          hinv, mergeVictoryTrigger, dropTokenToCell]
      | some cellToken =>
        by_cases hval : held.value = cellToken.value
        · have heq : canMergeTokens held cellToken = true := by
            simp [canMergeTokens, hval]
          simp [handleCellClick, hint, hasToken, htok, isPlayerHoldingToken,
            hinv, mergeVictoryTrigger, attemptMerge, heq, mergeTokens,
            checkVictoryCondition_victory, hval]
        · have heq : canMergeTokens held cellToken = false := by
            simp [canMergeTokens, hval]
          simp [handleCellClick, hint, hasToken, htok, isPlayerHoldingToken,
            hinv, mergeVictoryTrigger, attemptMerge, heq, hval]
  · simp only [Bool.not_eq_true] at hint
    cases hinv : g.player.inventory with
    | none =>
      simp [handleCellClick, hint, mergeVictoryTrigger, hinv]
    | some held =>
      cases htok : cell.token with
      | none => simp [handleCellClick, hint, mergeVictoryTrigger, hinv, htok]
      | some cellToken =>
        simp [handleCellClick, hint, mergeVictoryTrigger, hinv, htok]

/-- A fold over world-updating steps that each preserve the victory flag
preserves the victory flag. -/
theorem foldl_preserves_victory {α : Type} (f : World → α → World)
    (hf : ∀ (w : World) (a : α),
      (f w a).game.isVictoryAchieved = w.game.isVictoryAchieved) :
    ∀ (l : List α) (w : World),
      (l.foldl f w).game.isVictoryAchieved = w.game.isVictoryAchieved := by
  intro l
  induction l with
  | nil => intro w; rfl
  | cons hd tl ih =>
    intro w
    simpa [List.foldl, hf] using ih (f w hd)

/-- Spawning a cell never touches the victory flag. -/
theorem spawnCell_victory (luck : String → Rat) (w : World) (i j : Int) :
    (spawnCell luck w i j).1.game.isVictoryAchieved =
      w.game.isVictoryAchieved := by
  simp [spawnCell]

/-- Despawning a cell never touches the victory flag. -/
theorem despawnCell_victory (w : World) (cellKey : CellKey) :
    (despawnCell w cellKey).game.isVictoryAchieved =
      w.game.isVictoryAchieved := by
  unfold despawnCell
  cases alGet cellKey w.activeCells <;> simp

/-- A whole viewport pass never touches the victory flag. -/
theorem updateCellVisibility_victory (luck : String → Rat) (w : World)
    (r : VisRange) :
    (updateCellVisibility luck w r).game.isVictoryAchieved =
      w.game.isVictoryAchieved := by
  unfold updateCellVisibility
  rw [foldl_preserves_victory, foldl_preserves_victory]
  · intro w' ij
    unfold visitRangeCell
    cases hget : alGet (cellToKey ij.1 ij.2) w'.activeCells with
    | none => simp [getOrCreateCell, hget, spawnCell_victory]
    | some cell => simp [hget]
  · intro w' cellKey
    by_cases h : cellKey ∈ (visRangeCells r).map (fun ij => cellToKey ij.1 ij.2)
    · simp [h]
    · simp [h, despawnCell_victory]

/-- C9: the victory flag after any operation equals the old flag or-ed with
the victory trigger of that operation, so the flag never falls back from
`true` to `false`, and it switches on exactly when a click performs a merge
whose resulting token value reaches the victory threshold while the flag was
still off. -/
theorem victory_flag_monotone (luck : String → Rat) (op : Op) (w : World) :
    (applyOp luck op w).game.isVictoryAchieved =
      (w.game.isVictoryAchieved || victoryTrigger w op) := by
  cases op with
  | click cellKey =>
    simp only [applyOp, victoryTrigger, clickVictoryTrigger, handleCellClickW]
    cases hget : alGet cellKey w.activeCells with
    | none => simp
    | some cell => simpa using handleCellClick_victory cell w.game
  | move direction => simp [applyOp, victoryTrigger, movePlayer]
  | viewportChange southWest northEast =>
    simp [applyOp, victoryTrigger, updateCellVisibility_victory]
  | cleanup => simp [applyOp, victoryTrigger, cleanupAllCells]

set_option maxRecDepth 1000000 in
/-- C1: evaluation of the viewport lifecycle at explicit inputs showing that
it never consults the caretaker: with a snapshot (token value `2048`) stored
for the inactive cell `(0,0)`, a viewport pass activates the cell with the
freshly spawned token of value `1` instead of the stored one; and when an
active modified cell (token value `7` at `(100,100)`) leaves the buffered
rectangle, it is despawned with no `saveState` call, so the caretaker holds
no state for it afterwards. -/
theorem updateCellVisibility_ignores_caretaker :
    caretakerWorld.caretaker.hasState "0,0" = true ∧
    CellCaretaker.restoreState caretakerWorld.caretaker "0,0" =
      some { value := 2048 } ∧
    (alGet "0,0"
      (updateCellVisibility luckZero caretakerWorld originRange).activeCells).map
        (fun cell => cell.token) = some (some { value := 1 }) ∧
    some ({ value := 1 } : Token) ≠ some ({ value := 2048 } : Token) ∧
    isCellActive farCellWorld "100,100" = true ∧
    isCellActive (updateCellVisibility luckZero farCellWorld originRange)
      "100,100" = false ∧
    (updateCellVisibility luckZero farCellWorld originRange).caretaker.hasState
      "100,100" = false := by
  refine ⟨?_, ?_, ?_, ?_, ?_, ?_, ?_⟩ <;> with_unfolding_all decide

end WorldOfBits
